import Mathlib

/-!
Verification of the overwitch `engine.c` core (USB audio/MIDI bridge engine).

This development shallowly embeds the data model and the operations of
`src/engine.c`: the packet codec (`ow_engine_read_usb_input_blocks`,
`ow_engine_write_usb_output_blocks`), the audio input handler
(`set_usb_input_data_blks`), the MIDI-in completion callback
(`cb_xfr_in_midi`), the activation validation (`ow_engine_activate`),
the join contract (`ow_engine_wait`), the error-string table
(`ob_err_strgs` / `ow_get_err_str`) and a small-step interleaving model
of the two worker threads and the status field.

Machine integers are modelled as `Nat`/`Int` with explicit `% 2^w`;
C `float`/`double` values are idealized as `ℚ` (the claims settled here
depend only on exact integer truncation and on which multiplications
occur, not on rounding of the float format itself); big-endian stores
(`htobe16`/`htobe32`) are modelled as byte-list serializations, faithful
to the wire layout described for `struct ow_engine_usb_blk`.

Constants and declarations that live in the missing header `engine.h`
(`OB_FRAMES_PER_BLOCK`, the status and error enums, the option flags,
`OB_MIDI_EVENT_SIZE`, the `uint16_t` type of `usb.frames`) are modelled
from the spec, as noted on each definition.
-/

namespace Overwitch

/-- Modelled from the spec: the status enum of `engine.h` (missing from the
sources), totally ordered `ERROR < STOP < READY < BOOT < WAIT < RUN`. -/
inductive EngineStatus where
  | error
  | stop
  | ready
  | boot
  | wait
  | run
deriving DecidableEq, Repr

/-- Modelled from the spec: the numeric value of each status
(`ERROR = -1`, `STOP = 0`, ..., `RUN = 4`), used by the `<`/`<=`/`>=`
comparisons in `engine.c`. -/
def EngineStatus.toZ : EngineStatus → ℤ
  | .error => -1
  | .stop => 0
  | .ready => 1
  | .boot => 2
  | .wait => 3
  | .run => 4

/-- `htobe16` on a 16-bit quantity, as its two-byte big-endian serialization
(the wire layout of the `header` and `frames` fields of
`struct ow_engine_usb_blk`). -/
def htobe16 (x : ℕ) : List ℕ := [x / 2 ^ 8 % 256, x % 256]

/-- `be16toh`: read a two-byte big-endian word. -/
def be16toh : List ℕ → ℕ
  | [a, b] => a * 256 + b
  | _ => 0

/-- `htobe32` on a 32-bit quantity, as its four-byte big-endian
serialization (the wire layout of one sample in `blk->data`). -/
def htobe32 (x : ℕ) : List ℕ :=
  [x / 2 ^ 24 % 256, x / 2 ^ 16 % 256, x / 2 ^ 8 % 256, x % 256]

/-- `be32toh`: read a four-byte big-endian word. -/
def be32toh : List ℕ → ℕ
  | [a, b, c, d] => ((a * 256 + b) * 256 + c) * 256 + d
  | _ => 0

/-- Reinterpret an unsigned 32-bit word as a two's-complement `int32_t`
(the type of `hv` in `ow_engine_read_usb_input_blocks`). -/
def int32OfUInt32 (n : ℕ) : ℤ :=
  if n % 2 ^ 32 < 2 ^ 31 then ((n % 2 ^ 32 : ℕ) : ℤ)
  else ((n % 2 ^ 32 : ℕ) : ℤ) - 2 ^ 32

/-- Reinterpret an `int32_t` value as its unsigned 32-bit representation
(the store of `ov` into the block data). -/
def uint32OfInt32 (i : ℤ) : ℕ := (i % 2 ^ 32).toNat

/-- C cast from a real-valued expression to `int32_t`: truncation toward
zero (defined behaviour for the in-range values arising here). -/
def ratTruncToInt (q : ℚ) : ℤ := if 0 ≤ q then ⌊q⌋ else ⌈q⌉

/-- `INT_MAX` from `<limits.h>`: `2^31 - 1`. -/
def INT_MAX : ℤ := 2 ^ 31 - 1

/-- Modelled from the spec: `OB_FRAMES_PER_BLOCK` from the missing
`engine.h`; the spec's scenario `blocks_per_transfer = 4 →
frames_per_transfer = 28` fixes it to `7`. -/
def FRAMES_PER_BLOCK : ℕ := 7

/-- One USB block of `struct ow_engine_usb_blk`, in wire layout:
a 2-byte big-endian `header`, a 2-byte big-endian `frames` counter and a
list of 4-byte big-endian samples. -/
structure UsbBlk where
  header : List ℕ
  frames : List ℕ
  data : List (List ℕ)
deriving DecidableEq, Repr

/-- Encoding of one outgoing sample, from
`ow_engine_write_usb_output_blocks`:
`ov = htobe32 ((int32_t) (*f * INT_MAX))`. -/
def encodeSample (f : ℚ) : List ℕ :=
  htobe32 (uint32OfInt32 (ratTruncToInt (f * (INT_MAX : ℚ))))

/-- Decoding of one incoming sample, from
`ow_engine_read_usb_input_blocks`: `hv = be32toh (*s); *f = hv * (*scale)`. -/
def decodeSample (bytes : List ℕ) (scale : ℚ) : ℚ :=
  ((int32OfUInt32 (be32toh bytes) : ℤ) : ℚ) * scale

/-- Decoding of the flat data array of one block: the inner two loops of
`ow_engine_read_usb_input_blocks`. Sample number `m` (frame `j`, track
`k`, `m = j * outputs + k`) is scaled by
`device_desc->output_track_scales[k]`, i.e. by scale index `m % outputs`;
the scale pointer is reset at the start of each frame. -/
def decodeBlockData (scales : List ℚ) (data : List (List ℕ)) : List ℚ :=
  data.enum.map fun p => decodeSample p.2 (scales.getD (p.1 % scales.length) 0)

/-- `ow_engine_read_usb_input_blocks`: decode every block of the incoming
transfer in order, appending the decoded floats to the o2p transfer
buffer. `scales` is `device_desc->output_track_scales`, of length
`device_desc->outputs`. -/
def ow_engine_read_usb_input_blocks (scales : List ℚ) : List UsbBlk → List ℚ
  | [] => []
  | b :: bs => decodeBlockData scales b.data ++ ow_engine_read_usb_input_blocks scales bs

/-- `ow_engine_write_usb_output_blocks`: for each of the
`blocks_per_transfer` blocks (represented by the list of current blocks,
whose headers are left untouched), store `htobe16 (engine->usb.frames)`
into `frames`, advance the 16-bit running counter by
`OB_FRAMES_PER_BLOCK`, and fill the data with the encodings of the next
`OB_FRAMES_PER_BLOCK * device_desc->inputs` floats of the p2o transfer
buffer. Returns the updated blocks and the new counter. -/
def ow_engine_write_usb_output_blocks (inputs : ℕ) :
    List UsbBlk → ℕ → List ℚ → List UsbBlk × ℕ
  | [], frames, _ => ([], frames)
  | b :: bs, frames, fs =>
      let n := FRAMES_PER_BLOCK * inputs
      let rest := ow_engine_write_usb_output_blocks inputs bs
        ((frames + FRAMES_PER_BLOCK) % 2 ^ 16) (fs.drop n)
      (⟨b.header, htobe16 frames, (fs.take n).map encodeSample⟩ :: rest.1, rest.2)

/-- The outgoing blocks as `ow_engine_init_mem` leaves them: data zeroed
by `memset`, `blk->header = htobe16 (0x07ff)` stamped once per block. -/
def initOutputBlks (blocksPerTransfer inputs : ℕ) : List UsbBlk :=
  List.replicate blocksPerTransfer
    ⟨htobe16 0x7ff, htobe16 0, List.replicate (FRAMES_PER_BLOCK * inputs) (htobe32 0)⟩

/-- The externally visible effects of one run of `set_usb_input_data_blks`
(the audio input handler): whether the DLL was ticked, the decoded o2p
transfer buffer, the list of byte counts passed to the o2p ring `write`
operation (in call order), and the new values, if written, of
`o2p_latency` and `o2p_max_latency`. -/
structure InputBlksEffect where
  dllTicked : Bool
  decoded : List ℚ
  writes : List ℕ
  o2pLatency : Option ℕ
  o2pMaxLatency : Option ℕ
deriving DecidableEq, Repr

/-- `set_usb_input_data_blks`: under the lock, tick the DLL if configured
and snapshot the status; decode the incoming blocks; if the snapshot is
below `RUN`, return; otherwise update the latency counters from
`read_space (o2p_audio)` and, when
`o2p_transfer_size <= write_space (o2p_audio)`, write exactly
`o2p_transfer_size` bytes to the o2p ring, else drop the whole transfer. -/
def set_usb_input_data_blks (dllPresent : Bool) (status : EngineStatus)
    (scales : List ℚ) (blks : List UsbBlk)
    (o2pTransferSize readSpace writeSpace prevMaxLatency : ℕ) : InputBlksEffect :=
  let decoded := ow_engine_read_usb_input_blocks scales blks
  if status.toZ < EngineStatus.run.toZ then
    ⟨dllPresent, decoded, [], none, none⟩
  else
    let lat := readSpace
    let maxLat := if prevMaxLatency < lat then lat else prevMaxLatency
    if o2pTransferSize ≤ writeSpace then
      ⟨dllPresent, decoded, [o2pTransferSize], some lat, some maxLat⟩
    else
      ⟨dllPresent, decoded, [], some lat, some maxLat⟩

/-- A host-side MIDI event, `struct ow_midi_event`: a `double` timestamp
(idealized as `ℚ`) and the 4 wire bytes of one USB-MIDI event packet
(`OB_MIDI_EVENT_SIZE = 4`, modelled from the spec's wire contract since
`engine.h` is missing; the ring-buffer record is 16 bytes). -/
structure OwMidiEvent where
  time : ℚ
  bytes : List ℕ
deriving DecidableEq, Repr

/-- Modelled from the spec: `sizeof (struct ow_midi_event)` = 16 bytes
(8-byte double timestamp + 4 event bytes + padding), the unit compared
against `write_space (o2p_midi)` per enqueued event. -/
def MIDI_RING_EVENT_SIZE : ℕ := 16

/-- The `while (length < xfr->actual_length)` loop of `cb_xfr_in_midi`:
walk the payload in `OB_MIDI_EVENT_SIZE = 4`-byte strides; a chunk whose
first byte lies in `[0x08, 0x0f]` is enqueued, tagged with the timestamp
`t` sampled before the loop, provided the o2p_midi ring has at least
`sizeof (struct ow_midi_event)` bytes of write space (`space` is the
ring's free byte count, decreasing by 16 per successful write); every
other chunk is skipped. Returns the enqueued events in order. -/
def processMidiIn (t : ℚ) : List ℕ → ℕ → List OwMidiEvent
  | b0 :: b1 :: b2 :: b3 :: rest, space =>
      if 0x08 ≤ b0 ∧ b0 ≤ 0x0f then
        if MIDI_RING_EVENT_SIZE ≤ space then
          ⟨t, [b0, b1, b2, b3]⟩ :: processMidiIn t rest (space - MIDI_RING_EVENT_SIZE)
        else processMidiIn t rest space
      else processMidiIn t rest space
  | _, _ => []

/-- `cb_xfr_in_midi`, as the list of events it enqueues to the o2p_midi
ring: nothing when the engine status is below `RUN` or when the transfer
did not complete; otherwise `event.time` is set once to
`engine->context->get_time ()` and the payload is processed in 4-byte
strides. -/
def cb_xfr_in_midi (status : EngineStatus) (completed : Bool) (t : ℚ)
    (buf : List ℕ) (space : ℕ) : List OwMidiEvent :=
  if status.toZ < EngineStatus.run.toZ then []
  else if completed then processMidiIn t buf space
  else []

/-- The payload chunking of `cb_xfr_in_midi`: the 4-byte strides of the
actual length. -/
def midiChunks : List ℕ → List (List ℕ)
  | b0 :: b1 :: b2 :: b3 :: rest => [b0, b1, b2, b3] :: midiChunks rest
  | _ => []

/-- Modelled from the spec: the five option flags of the `context->options`
bitmask (`OW_ENGINE_OPTION_*` in the missing `engine.h`), as independent
booleans. -/
structure EngineOptions where
  o2p_audio : Bool
  p2o_audio : Bool
  o2p_midi : Bool
  p2o_midi : Bool
  dll : Bool
deriving DecidableEq, Repr

/-- `context->options == 0`: no option flag is set. -/
def EngineOptions.isEmpty (o : EngineOptions) : Bool :=
  !o.o2p_audio && !o.p2o_audio && !o.o2p_midi && !o.p2o_midi && !o.dll

/-- The members of `struct ow_context` consulted by `ow_engine_activate`,
each as a presence flag (a C function/object pointer being non-NULL). -/
structure OwContext where
  options : EngineOptions
  read_space : Bool
  write_space : Bool
  read : Bool
  write : Bool
  p2o_audio : Bool
  o2p_audio : Bool
  p2o_midi : Bool
  o2p_midi : Bool
  get_time : Bool
  dll : Bool
deriving DecidableEq, Repr

/-- The error enum `ow_err_t`. The constructor order is modelled from the
spec's taxonomy and matches the `ob_err_strgs` table of `engine.c`
(20 entries, `OW_OK = 0` through `OW_INIT_ERROR_NO_DLL = 19`); the enum
itself lives in the missing `engine.h`. -/
inductive OwErr where
  | OW_OK
  | OW_GENERIC_ERROR
  | OW_USB_ERROR_LIBUSB_INIT_FAILED
  | OW_USB_ERROR_CANT_OPEN_DEV
  | OW_USB_ERROR_CANT_SET_USB_CONFIG
  | OW_USB_ERROR_CANT_CLAIM_IF
  | OW_USB_ERROR_CANT_SET_ALT_SETTING
  | OW_USB_ERROR_CANT_CLEAR_EP
  | OW_USB_ERROR_CANT_PREPARE_TRANSFER
  | OW_USB_ERROR_CANT_FIND_DEV
  | OW_INIT_ERROR_NO_READ_SPACE
  | OW_INIT_ERROR_NO_WRITE_SPACE
  | OW_INIT_ERROR_NO_READ
  | OW_INIT_ERROR_NO_WRITE
  | OW_INIT_ERROR_NO_P2O_AUDIO_BUF
  | OW_INIT_ERROR_NO_O2P_AUDIO_BUF
  | OW_INIT_ERROR_NO_P2O_MIDI_BUF
  | OW_INIT_ERROR_NO_O2P_MIDI_BUF
  | OW_INIT_ERROR_NO_GET_TIME
  | OW_INIT_ERROR_NO_DLL
deriving DecidableEq, Repr

/-- The numeric tag of each `ow_err_t` value. -/
def OwErr.tag : OwErr → ℕ
  | .OW_OK => 0
  | .OW_GENERIC_ERROR => 1
  | .OW_USB_ERROR_LIBUSB_INIT_FAILED => 2
  | .OW_USB_ERROR_CANT_OPEN_DEV => 3
  | .OW_USB_ERROR_CANT_SET_USB_CONFIG => 4
  | .OW_USB_ERROR_CANT_CLAIM_IF => 5
  | .OW_USB_ERROR_CANT_SET_ALT_SETTING => 6
  | .OW_USB_ERROR_CANT_CLEAR_EP => 7
  | .OW_USB_ERROR_CANT_PREPARE_TRANSFER => 8
  | .OW_USB_ERROR_CANT_FIND_DEV => 9
  | .OW_INIT_ERROR_NO_READ_SPACE => 10
  | .OW_INIT_ERROR_NO_WRITE_SPACE => 11
  | .OW_INIT_ERROR_NO_READ => 12
  | .OW_INIT_ERROR_NO_WRITE => 13
  | .OW_INIT_ERROR_NO_P2O_AUDIO_BUF => 14
  | .OW_INIT_ERROR_NO_O2P_AUDIO_BUF => 15
  | .OW_INIT_ERROR_NO_P2O_MIDI_BUF => 16
  | .OW_INIT_ERROR_NO_O2P_MIDI_BUF => 17
  | .OW_INIT_ERROR_NO_GET_TIME => 18
  | .OW_INIT_ERROR_NO_DLL => 19

/-- The validation prefix of `ow_engine_activate` (lines 908-985): the
returned error, or `OW_OK` when every check passes. Mirrors the source's
early-return chain: empty bitmask, then per enabled option the checks in
source order. -/
def ow_engine_activate_validate (c : OwContext) : OwErr :=
  if c.options.isEmpty then .OW_GENERIC_ERROR
  else if c.options.o2p_audio && !c.write_space then .OW_INIT_ERROR_NO_WRITE_SPACE
  else if c.options.o2p_audio && !c.write then .OW_INIT_ERROR_NO_WRITE
  else if c.options.o2p_audio && !c.o2p_audio then .OW_INIT_ERROR_NO_O2P_AUDIO_BUF
  else if c.options.p2o_audio && !c.read_space then .OW_INIT_ERROR_NO_READ_SPACE
  else if c.options.p2o_audio && !c.read then .OW_INIT_ERROR_NO_READ
  else if c.options.p2o_audio && !c.p2o_audio then .OW_INIT_ERROR_NO_P2O_AUDIO_BUF
  else if c.options.o2p_midi && !c.get_time then .OW_INIT_ERROR_NO_GET_TIME
  else if c.options.o2p_midi && !c.o2p_midi then .OW_INIT_ERROR_NO_O2P_MIDI_BUF
  else if c.options.p2o_midi && !c.get_time then .OW_INIT_ERROR_NO_GET_TIME
  else if c.options.p2o_midi && !c.p2o_midi then .OW_INIT_ERROR_NO_P2O_MIDI_BUF
  else if c.options.dll && !c.get_time then .OW_INIT_ERROR_NO_GET_TIME
  else if c.options.dll && !c.dll then .OW_INIT_ERROR_NO_DLL
  else .OW_OK

/-- The two worker threads of the engine. -/
inductive WorkerThread where
  | audioO2pMidi
  | p2oMidi
deriving DecidableEq, Repr

/-- The threads spawned by `ow_engine_activate` after validation:
`p2o_midi_thread` iff the `P2O_MIDI` option is set (line 993),
`audio_o2p_midi_thread` iff any of `O2P_MIDI`, `O2P_AUDIO`, `P2O_AUDIO`
is set (line 1006). -/
def activateStartedThreads (o : EngineOptions) : List WorkerThread :=
  (if o.p2o_midi then [WorkerThread.p2oMidi] else []) ++
    (if o.o2p_midi || o.o2p_audio || o.p2o_audio then [WorkerThread.audioO2pMidi] else [])

/-- `ow_engine_wait`: the joined threads in join order. The source joins
`audio_o2p_midi_thread` unconditionally, then joins `p2o_midi_thread`
when `engine->options.o2p_midi` is set (line 1028). -/
def ow_engine_wait (o : EngineOptions) : List WorkerThread :=
  [WorkerThread.audioO2pMidi] ++ (if o.o2p_midi then [WorkerThread.p2oMidi] else [])

/-- The constant string table `ob_err_strgs` of `engine.c`, verbatim
(including the "cleat" typo of entry 7). -/
def ob_err_strgs : List String :=
  ["ok",
   "generic error",
   "libusb init failed",
   "can\x27t open device",
   "can\x27t set usb config",
   "can\x27t claim usb interface",
   "can\x27t set usb alt setting",
   "can\x27t cleat endpoint",
   "can\x27t prepare transfer",
   "can\x27t find a matching device",
   "\x27read_space\x27 not set in context",
   "\x27write_space\x27 not set in context",
   "\x27read\x27 not set in context",
   "\x27write\x27 not set in context",
   "\x27p2o_audio_buf\x27 not set in context",
   "\x27o2p_audio_buf\x27 not set in context",
   "\x27p2o_midi_buf\x27 not set in context",
   "\x27o2p_midi_buf\x27 not set in context",
   "\x27get_time\x27 not set in context",
   "\x27dll\x27 not set in context"]

/-- `ow_get_err_str`: `return ob_err_strgs[errcode];` — an unchecked array
index, modelled as an optional lookup so that definedness is explicit. -/
def ow_get_err_str (errcode : ℕ) : Option String :=
  ob_err_strgs[errcode]?

/-- Program counter of the audio / o2p-MIDI worker `run_audio_o2p_midi`:
the busy-spin on `READY` (line 849), the initial transfer submissions
(853-858), the outer-loop counter reset (862-866), the locked status
store (870-882), the inner libusb event loop (884-887), the termination
check (889-892), the resync drain (894-897), and thread exit. -/
inductive AudioPC where
  | spinReady
  | submitInit
  | loopTop
  | setStatusTop
  | eventLoop
  | checkExit
  | drainResync
  | exited
deriving DecidableEq, Repr

/-- Program counter of the p2o-MIDI worker `run_p2o_midi`: the loop body
(accumulate events, submit, sleep, poll `p2o_midi_ready` — none of which
touches `engine->status`), the termination check (line 834), and thread
exit. -/
inductive MidiPC where
  | body
  | check
  | exited
deriving DecidableEq, Repr

/-- State of the status/worker interleaving model: the shared `status`
field, both workers' program counters, and whether `context->dll` is
configured. -/
structure SysState where
  status : EngineStatus
  audioPC : AudioPC
  midiPC : MidiPC
  dll : Bool
deriving DecidableEq, Repr

/-- `ow_engine_get_status`: read `engine->status` under the lock. -/
def ow_engine_get_status (s : SysState) : EngineStatus := s.status

/-- `ow_engine_stop`: `ow_engine_set_status (engine, OW_ENGINE_STATUS_STOP)`. -/
def ow_engine_stop (s : SysState) : SysState := { s with status := .stop }

/-- Who performs a step: one of the two workers, the host calling
`ow_engine_stop`, or the external agent calling
`ow_engine_set_status (engine, OW_ENGINE_STATUS_BOOT)` (the resync
trigger the spec describes in the worker's outer loop). -/
inductive StepLabel where
  | audio
  | midi
  | envStop
  | envBoot
deriving DecidableEq, Repr

/-- Small-step interleaving semantics of `run_audio_o2p_midi` and
`run_p2o_midi` together with the external status writes. Each lock-guarded
status access of the source is one atomic step; `submit_err` and
`event_err` model transfer-submit failures inside the callbacks setting
`OW_ENGINE_STATUS_ERROR`. -/
inductive Step : SysState → StepLabel → SysState → Prop where
  | spin_stay (s : SysState) : s.audioPC = .spinReady → s.status = .ready →
      Step s .audio s
  | spin_exit (s : SysState) : s.audioPC = .spinReady → s.status ≠ .ready →
      Step s .audio { s with audioPC := .submitInit }
  | submit_ok (s : SysState) : s.audioPC = .submitInit →
      Step s .audio { s with audioPC := .loopTop }
  | submit_err (s : SysState) : s.audioPC = .submitInit →
      Step s .audio { s with audioPC := .loopTop, status := .error }
  | loop_top (s : SysState) : s.audioPC = .loopTop →
      Step s .audio { s with audioPC := .setStatusTop }
  | set_status_top (s : SysState) : s.audioPC = .setStatusTop →
      Step s .audio { s with audioPC := .eventLoop,
                             status := if s.dll then .wait else .run }
  | event_stay (s : SysState) : s.audioPC = .eventLoop →
      EngineStatus.wait.toZ ≤ s.status.toZ → Step s .audio s
  | event_err (s : SysState) : s.audioPC = .eventLoop →
      EngineStatus.wait.toZ ≤ s.status.toZ →
      Step s .audio { s with status := .error }
  | event_exit (s : SysState) : s.audioPC = .eventLoop →
      s.status.toZ < EngineStatus.wait.toZ →
      Step s .audio { s with audioPC := .checkExit }
  | check_stop (s : SysState) : s.audioPC = .checkExit →
      s.status.toZ ≤ EngineStatus.stop.toZ →
      Step s .audio { s with audioPC := .exited }
  | check_cont (s : SysState) : s.audioPC = .checkExit →
      EngineStatus.stop.toZ < s.status.toZ →
      Step s .audio { s with audioPC := .drainResync }
  | drain_step (s : SysState) : s.audioPC = .drainResync →
      Step s .audio { s with audioPC := .loopTop }
  | midi_body (s : SysState) : s.midiPC = .body →
      Step s .midi { s with midiPC := .check }
  | midi_exit (s : SysState) : s.midiPC = .check →
      s.status.toZ ≤ EngineStatus.stop.toZ →
      Step s .midi { s with midiPC := .exited }
  | midi_cont (s : SysState) : s.midiPC = .check →
      EngineStatus.stop.toZ < s.status.toZ →
      Step s .midi { s with midiPC := .body }
  | env_stop (s : SysState) : Step s .envStop (ow_engine_stop s)
  | env_boot (s : SysState) : Step s .envBoot { s with status := .boot }

/-- Any-label step relation (closure base for reachability). -/
def SysStepAny (a b : SysState) : Prop := ∃ l, Step a l b

/-- Steps excluding the external `BOOT` resync write: the workers plus
`ow_engine_stop`. -/
def SysStepNoBoot (a b : SysState) : Prop :=
  ∃ l, l ≠ StepLabel.envBoot ∧ Step a l b

/-- The post-stop safety region: status at most `STOP` while the audio
worker is inside its inner event loop, at its termination check, or has
exited. -/
def StopSafe (s : SysState) : Prop :=
  s.status.toZ ≤ EngineStatus.stop.toZ ∧
    (s.audioPC = .eventLoop ∨ s.audioPC = .checkExit ∨ s.audioPC = .exited)

/-- Progress rank of the p2o-MIDI worker: it only ever moves forward
through `body → check → exited` once the status is at most `STOP`. -/
def midiRank : MidiPC → ℕ
  | .body => 0
  | .check => 1
  | .exited => 2

/- ## Arithmetic helper lemmas -/

theorem be32toh_htobe32 (x : ℕ) : be32toh (htobe32 x) = x % 2 ^ 32 := by
  simp only [be32toh, htobe32]
  omega

theorem int32OfUInt32_mod (n : ℕ) : int32OfUInt32 (n % 2 ^ 32) = int32OfUInt32 n := by
  unfold int32OfUInt32
  rw [Nat.mod_mod_of_dvd _ dvd_rfl]

theorem int32OfUInt32_uint32OfInt32 (i : ℤ) (h1 : -(2 ^ 31) ≤ i) (h2 : i < 2 ^ 31) :
    int32OfUInt32 (uint32OfInt32 i) = i := by
  unfold int32OfUInt32 uint32OfInt32
  have h3 : (0 : ℤ) ≤ i % 2 ^ 32 := Int.emod_nonneg i (by norm_num)
  have h4 : ((i % 2 ^ 32).toNat : ℤ) = i % 2 ^ 32 := Int.toNat_of_nonneg h3
  split <;> omega

theorem abs_ratTruncToInt_sub_le (q : ℚ) : |((ratTruncToInt q : ℤ) : ℚ) - q| ≤ 1 := by
  unfold ratTruncToInt
  split
  · rw [abs_le]
    constructor
    · have := Int.lt_floor_add_one q
      linarith
    · have := Int.floor_le q
      linarith
  · rw [abs_le]
    constructor
    · have := Int.le_ceil q
      linarith
    · have := Int.ceil_lt_add_one q
      linarith

theorem abs_ratTruncToInt_le (q : ℚ) : |((ratTruncToInt q : ℤ) : ℚ)| ≤ |q| := by
  unfold ratTruncToInt
  split
  · next h =>
      have h1 : (0 : ℚ) ≤ ((⌊q⌋ : ℤ) : ℚ) := by exact_mod_cast Int.floor_nonneg.mpr h
      rw [abs_of_nonneg h1, abs_of_nonneg h]
      exact Int.floor_le q
  · next h =>
      push_neg at h
      have h0 : q ≤ 0 := le_of_lt h
      have h1 : ((⌈q⌉ : ℤ) : ℚ) ≤ 0 := by
        exact_mod_cast Int.ceil_le.mpr (by exact_mod_cast h0)
      rw [abs_of_nonpos h1, abs_of_nonpos h0]
      have := Int.le_ceil q
      linarith

/-- Per-sample round trip: with the matching scale `INT_MAX⁻¹`, decoding
an encoded sample of magnitude at most one recovers it up to the
truncation error, which is bounded by `INT_MAX⁻¹`. -/
theorem decodeSample_encodeSample (x : ℚ) (hx : |x| ≤ 1) :
    |decodeSample (encodeSample x) ((INT_MAX : ℚ))⁻¹ - x| ≤ ((INT_MAX : ℚ))⁻¹ := by
  have hM : (0 : ℚ) < ((INT_MAX : ℤ) : ℚ) := by norm_num [INT_MAX]
  set t : ℤ := ratTruncToInt (x * (INT_MAX : ℚ)) with ht
  have habs : |((t : ℤ) : ℚ)| ≤ ((INT_MAX : ℤ) : ℚ) := by
    calc |((t : ℤ) : ℚ)| ≤ |x * (INT_MAX : ℚ)| := abs_ratTruncToInt_le _
    _ = |x| * ((INT_MAX : ℤ) : ℚ) := by rw [abs_mul, abs_of_pos hM]
    _ ≤ 1 * ((INT_MAX : ℤ) : ℚ) := by
        exact mul_le_mul_of_nonneg_right hx (le_of_lt hM)
    _ = ((INT_MAX : ℤ) : ℚ) := one_mul _
  have habsZ : |t| ≤ INT_MAX := by
    have : ((|t| : ℤ) : ℚ) ≤ ((INT_MAX : ℤ) : ℚ) := by
      rw [Int.cast_abs]
      exact habs
    exact_mod_cast this
  have hrange1 : -(2 ^ 31) ≤ t := by
    have := abs_le.mp habsZ
    simp only [INT_MAX] at this
    omega
  have hrange2 : t < 2 ^ 31 := by
    have := abs_le.mp habsZ
    simp only [INT_MAX] at this
    omega
  have hdec : decodeSample (encodeSample x) ((INT_MAX : ℚ))⁻¹
      = ((t : ℤ) : ℚ) * ((INT_MAX : ℚ))⁻¹ := by
    unfold decodeSample encodeSample
    rw [be32toh_htobe32, int32OfUInt32_mod, ← ht,
      int32OfUInt32_uint32OfInt32 t hrange1 hrange2]
  rw [hdec]
  have key : |((t : ℤ) : ℚ) - x * (INT_MAX : ℚ)| ≤ 1 := abs_ratTruncToInt_sub_le _
  have heq : ((t : ℤ) : ℚ) * ((INT_MAX : ℚ))⁻¹ - x
      = (((t : ℤ) : ℚ) - x * (INT_MAX : ℚ)) * ((INT_MAX : ℚ))⁻¹ := by
    field_simp
    ring
  rw [heq, abs_mul, abs_inv, abs_of_pos hM]
  calc |((t : ℤ) : ℚ) - x * (INT_MAX : ℚ)| * ((INT_MAX : ℤ) : ℚ)⁻¹
      ≤ 1 * ((INT_MAX : ℤ) : ℚ)⁻¹ := by
        exact mul_le_mul_of_nonneg_right key (by positivity)
    _ = ((INT_MAX : ℤ) : ℚ)⁻¹ := one_mul _

/- ## List-level codec lemmas -/

theorem getD_replicate_of_lt (sc d : ℚ) :
    ∀ (ch i : ℕ), i < ch → (List.replicate ch sc).getD i d = sc := by
  intro ch
  induction ch with
  | zero => intro i h; omega
  | succ n ih =>
      intro i h
      cases i with
      | zero => rfl
      | succ j =>
          rw [List.replicate_succ, List.getD_cons_succ]
          exact ih j (by omega)

theorem decodeBlockData_replicate (sc : ℚ) (ch : ℕ) (hch : 0 < ch)
    (data : List (List ℕ)) :
    decodeBlockData (List.replicate ch sc) data
      = data.map (fun b => decodeSample b sc) := by
  unfold decodeBlockData
  simp only [List.length_replicate]
  have h : ∀ (n : ℕ),
      (List.enumFrom n data).map
          (fun p => decodeSample p.2 ((List.replicate ch sc).getD (p.1 % ch) 0))
        = data.map (fun b => decodeSample b sc) := by
    induction data with
    | nil => intro n; rfl
    | cons b bs ih =>
        intro n
        simp only [List.enumFrom, List.map_cons]
        rw [ih (n + 1), getD_replicate_of_lt sc 0 ch (n % ch) (Nat.mod_lt n hch)]
  simpa [List.enum] using h 0

theorem read_write_blocks (ch : ℕ) (hch : 0 < ch) (sc : ℚ) :
    ∀ (blks : List UsbBlk) (frames : ℕ) (fs : List ℚ),
      fs.length = blks.length * (FRAMES_PER_BLOCK * ch) →
      ow_engine_read_usb_input_blocks (List.replicate ch sc)
          (ow_engine_write_usb_output_blocks ch blks frames fs).1
        = fs.map (fun x => decodeSample (encodeSample x) sc) := by
  intro blks
  induction blks with
  | nil =>
      intro frames fs hlen
      have h0 : fs = [] := List.eq_nil_of_length_eq_zero (by simpa using hlen)
      simp [h0, ow_engine_write_usb_output_blocks, ow_engine_read_usb_input_blocks]
  | cons b bs ih =>
      intro frames fs hlen
      have hdroplen : (fs.drop (FRAMES_PER_BLOCK * ch)).length
          = bs.length * (FRAMES_PER_BLOCK * ch) := by
        rw [List.length_drop, hlen, List.length_cons, Nat.succ_mul, Nat.add_sub_cancel]
      simp only [ow_engine_write_usb_output_blocks, ow_engine_read_usb_input_blocks]
      rw [decodeBlockData_replicate sc ch hch, List.map_map, ih _ _ hdroplen]
      rw [show ((fun b => decodeSample b sc) ∘ encodeSample)
            = fun x => decodeSample (encodeSample x) sc from rfl]
      rw [← List.map_append, List.take_append_drop]

/- ## C1: codec round trip -/

/-- C1 (amended): for every float vector `v` with all components in
`[-1, 1]` and per-channel scales all equal to `INT_MAX⁻¹ = (2^31 - 1)⁻¹`
(the reciprocal of the encoder's multiplier), decoding
(`ow_engine_read_usb_input_blocks`) the encoding
(`ow_engine_write_usb_output_blocks`) of `v`, with equal channel counts,
yields a vector componentwise within `(2^31 - 1)⁻¹` of `v`. The claim as
stated — with per-channel scales all `1.0` — is false: the decoder
multiplies the raw `int32` sample by the scale without dividing by
`INT_MAX`, see `C1_counterexample`. -/
theorem C1_codec_roundtrip_amended (ch : ℕ) (hch : 0 < ch) (blks : List UsbBlk)
    (frames : ℕ) (fs : List ℚ)
    (hlen : fs.length = blks.length * (FRAMES_PER_BLOCK * ch))
    (hv : ∀ x ∈ fs, |x| ≤ 1) :
    List.Forall₂ (fun x y => |y - x| ≤ ((INT_MAX : ℚ))⁻¹) fs
      (ow_engine_read_usb_input_blocks (List.replicate ch (((INT_MAX : ℚ))⁻¹))
        (ow_engine_write_usb_output_blocks ch blks frames fs).1) := by
  rw [read_write_blocks ch hch _ blks frames fs hlen]
  rw [List.forall₂_map_right_iff, List.forall₂_same]
  intro x hx
  exact decodeSample_encodeSample x (hv x hx)

/-- Witness for C1: the amended round trip at a concrete configuration
(one block, one channel, all samples `1/2`). -/
theorem C1_codec_roundtrip_amended_witness :
    (0 < 1
      ∧ (List.replicate 7 ((1 : ℚ)/2)).length
          = (initOutputBlks 1 1).length * (FRAMES_PER_BLOCK * 1)
      ∧ ∀ x ∈ List.replicate 7 ((1 : ℚ)/2), |x| ≤ 1) ∧
    List.Forall₂ (fun x y => |y - x| ≤ ((INT_MAX : ℚ))⁻¹)
      (List.replicate 7 ((1 : ℚ)/2))
      (ow_engine_read_usb_input_blocks (List.replicate 1 (((INT_MAX : ℚ))⁻¹))
        (ow_engine_write_usb_output_blocks 1 (initOutputBlks 1 1) 0
          (List.replicate 7 ((1 : ℚ)/2))).1) :=
  ⟨⟨Nat.one_pos, by decide,
     fun x hx => by
       rw [List.eq_of_mem_replicate hx, abs_of_nonneg (by norm_num)]
       norm_num⟩,
   C1_codec_roundtrip_amended 1 Nat.one_pos (initOutputBlks 1 1) 0
     (List.replicate 7 ((1 : ℚ)/2)) (by decide)
     (fun x hx => by
       rw [List.eq_of_mem_replicate hx, abs_of_nonneg (by norm_num)]
       norm_num)⟩

/-- Counterexample to C1 as stated: with all per-channel scales `1.0`
(one block, one channel), the vector of samples `1/2` decodes to
`1073741823`, nowhere near `1/2`; the round trip is not within `2⁻³¹`. -/
theorem C1_counterexample :
    ¬ List.Forall₂ (fun x y => |y - x| ≤ ((2 : ℚ) ^ 31)⁻¹)
      (List.replicate 7 ((1 : ℚ)/2))
      (ow_engine_read_usb_input_blocks (List.replicate 1 (1 : ℚ))
        (ow_engine_write_usb_output_blocks 1 (initOutputBlks 1 1) 0
          (List.replicate 7 ((1 : ℚ)/2))).1) := by
  intro h
  have e1 : ratTruncToInt ((1 : ℚ)/2 * (INT_MAX : ℚ)) = 1073741823 := by
    unfold ratTruncToInt
    rw [if_pos (by norm_num [INT_MAX])]
    rw [Int.floor_eq_iff]
    constructor <;> norm_num [INT_MAX]
  have e2 : decodeSample (encodeSample ((1 : ℚ)/2)) 1 = 1073741823 := by
    unfold decodeSample encodeSample
    rw [e1, be32toh_htobe32, int32OfUInt32_mod,
      int32OfUInt32_uint32OfInt32 1073741823 (by norm_num) (by norm_num)]
    norm_num
  have heval : ow_engine_read_usb_input_blocks (List.replicate 1 (1 : ℚ))
      (ow_engine_write_usb_output_blocks 1 (initOutputBlks 1 1) 0
        (List.replicate 7 ((1 : ℚ)/2))).1
      = List.replicate 7 (1073741823 : ℚ) := by
    rw [read_write_blocks 1 Nat.one_pos 1 _ _ _ (by decide), List.map_replicate, e2]
  rw [heval] at h
  rw [show List.replicate 7 ((1 : ℚ)/2)
        = (1 : ℚ)/2 :: List.replicate 6 ((1 : ℚ)/2) from rfl] at h
  rw [show List.replicate 7 (1073741823 : ℚ)
        = (1073741823 : ℚ) :: List.replicate 6 (1073741823 : ℚ) from rfl] at h
  cases h with
  | cons h1 _ =>
      rw [abs_of_nonneg (by norm_num)] at h1
      norm_num at h1

/- ## C5 / C6: audio input handler -/

/-- C5: o2p ring atomicity. In `set_usb_input_data_blks`, for every
transfer, either `write_space (o2p_audio)` is at least
`o2p_transfer_size` and the ring `write` is invoked exactly once with
exactly `o2p_transfer_size` bytes, or the ring `write` is not invoked at
all; no partial write of the transfer buffer to the o2p ring occurs. -/
theorem C5_o2p_ring_atomicity (dllPresent : Bool) (status : EngineStatus)
    (scales : List ℚ) (blks : List UsbBlk)
    (o2pTransferSize readSpace writeSpace prevMaxLatency : ℕ) :
    (o2pTransferSize ≤ writeSpace ∧
      (set_usb_input_data_blks dllPresent status scales blks
          o2pTransferSize readSpace writeSpace prevMaxLatency).writes
        = [o2pTransferSize]) ∨
    (set_usb_input_data_blks dllPresent status scales blks
        o2pTransferSize readSpace writeSpace prevMaxLatency).writes = [] := by
  unfold set_usb_input_data_blks
  dsimp only
  split
  · right
    rfl
  · split
    · next h => exact Or.inl ⟨h, rfl⟩
    · right
      rfl

/-- C6: DLL boot gating. If the status snapshot taken under the lock is
below `RUN`, `set_usb_input_data_blks` returns right after decoding: the
o2p ring `write` is not invoked and the latency counters are not
updated. -/
theorem C6_dll_boot_gating (dllPresent : Bool) (status : EngineStatus)
    (scales : List ℚ) (blks : List UsbBlk)
    (o2pTransferSize readSpace writeSpace prevMaxLatency : ℕ)
    (h : status.toZ < EngineStatus.run.toZ) :
    set_usb_input_data_blks dllPresent status scales blks
        o2pTransferSize readSpace writeSpace prevMaxLatency
      = ⟨dllPresent, ow_engine_read_usb_input_blocks scales blks, [], none, none⟩ := by
  unfold set_usb_input_data_blks
  rw [if_pos h]

/-- Witness for C6: at status `WAIT` (below `RUN`), nothing is written and
no latency counter is touched. -/
theorem C6_dll_boot_gating_witness :
    EngineStatus.wait.toZ < EngineStatus.run.toZ ∧
    set_usb_input_data_blks true .wait [] [] 448 0 1024 0
      = ⟨true, [], [], none, none⟩ :=
  ⟨by decide, C6_dll_boot_gating true .wait [] [] 448 0 1024 0 (by decide)⟩

/- ## C3: lifecycle join contract -/

/-- C3: the join/start mismatch. `ow_engine_activate` starts the p2o-MIDI
worker iff `options.p2o_midi`, but `ow_engine_wait` joins
`p2o_midi_thread` iff `options.o2p_midi` (line 1028): with only
`P2O_MIDI` enabled, the started p2o-MIDI worker is never joined; with
only `O2P_MIDI` enabled, `wait` joins the never-started thread. The
claim (join iff started, i.e. iff `P2O_MIDI`) describes the intent, not
this code. -/
theorem C3_wait_join_mismatch :
    (activateStartedThreads ⟨false, false, false, true, false⟩ = [WorkerThread.p2oMidi]
      ∧ ow_engine_wait ⟨false, false, false, true, false⟩ = [WorkerThread.audioO2pMidi]
      ∧ WorkerThread.p2oMidi ∉ ow_engine_wait ⟨false, false, false, true, false⟩) ∧
    (WorkerThread.p2oMidi ∉ activateStartedThreads ⟨false, false, true, false, false⟩
      ∧ WorkerThread.p2oMidi ∈ ow_engine_wait ⟨false, false, true, false, false⟩) := by
  decide

/- ## C10: error-string lookup -/

/-- C10: `ow_get_err_str` indexes the fixed 20-entry table
`ob_err_strgs`: for every error tag of the taxonomy (0 through 19) the
lookup returns the corresponding non-empty constant string, and the
lookup is defined exactly on tags below 20. -/
theorem C10_err_str_lookup :
    ob_err_strgs.length = 20 ∧
    (∀ e : ℕ, (ow_get_err_str e).isSome ↔ e < 20) ∧
    (∀ err : OwErr, ∃ s, ow_get_err_str err.tag = some s ∧ s ≠ "") := by
  refine ⟨rfl, fun e => ?_, fun err => by cases err <;> exact ⟨_, rfl, by decide⟩⟩
  unfold ow_get_err_str
  constructor
  · intro h
    by_contra hlt
    push_neg at hlt
    rw [List.getElem?_eq_none (by simpa using hlt)] at h
    simp at h
  · intro h
    rw [List.getElem?_eq_getElem (by simpa using h)]
    rfl

/- ## C2 / C8: MIDI-in filtering and timestamping -/

theorem processMidiIn_filter (t : ℚ) :
    ∀ (buf : List ℕ) (space : ℕ),
      MIDI_RING_EVENT_SIZE * (midiChunks buf).length ≤ space →
      processMidiIn t buf space
        = ((midiChunks buf).filter
            (fun c => decide (0x08 ≤ c.headD 0 ∧ c.headD 0 ≤ 0x0f))).map
            (fun c => OwMidiEvent.mk t c)
  | b0 :: b1 :: b2 :: b3 :: rest, space, h => by
      rw [show midiChunks (b0 :: b1 :: b2 :: b3 :: rest)
            = [b0, b1, b2, b3] :: midiChunks rest from rfl, List.length_cons] at h
      simp only [MIDI_RING_EVENT_SIZE] at h
      by_cases hb : 0x08 ≤ b0 ∧ b0 ≤ 0x0f
      · simp only [processMidiIn, if_pos hb,
          if_pos (show MIDI_RING_EVENT_SIZE ≤ space by
            simp only [MIDI_RING_EVENT_SIZE]; omega)]
        rw [processMidiIn_filter t rest (space - MIDI_RING_EVENT_SIZE)
          (by simp only [MIDI_RING_EVENT_SIZE]; omega)]
        simp [midiChunks, List.filter_cons, hb]
      · simp only [processMidiIn, if_neg hb]
        rw [processMidiIn_filter t rest space
          (by simp only [MIDI_RING_EVENT_SIZE]; omega)]
        simp [midiChunks, List.filter_cons, hb]
  | [], _, _ => rfl
  | [b0], _, _ => rfl
  | [b0, b1], _, _ => rfl
  | [b0, b1, b2], _, _ => rfl

theorem processMidiIn_time (t : ℚ) :
    ∀ (buf : List ℕ) (space : ℕ) (e : OwMidiEvent),
      e ∈ processMidiIn t buf space → e.time = t
  | b0 :: b1 :: b2 :: b3 :: rest, space, e, h => by
      by_cases hb : 0x08 ≤ b0 ∧ b0 ≤ 0x0f
      · by_cases h16 : MIDI_RING_EVENT_SIZE ≤ space
        · simp only [processMidiIn, if_pos hb, if_pos h16, List.mem_cons] at h
          rcases h with h | h
          · rw [h]
          · exact processMidiIn_time t rest _ e h
        · simp only [processMidiIn, if_pos hb, if_neg h16] at h
          exact processMidiIn_time t rest _ e h
      · simp only [processMidiIn, if_neg hb] at h
        exact processMidiIn_time t rest _ e h
  | [], _, e, h => by simp [processMidiIn] at h
  | [b0], _, e, h => by simp [processMidiIn] at h
  | [b0, b1], _, e, h => by simp [processMidiIn] at h
  | [b0, b1, b2], _, e, h => by simp [processMidiIn] at h

/-- C2 (amended): in the midi-in completion path with status at least
`RUN`, the payload is iterated in 4-byte strides, and — when the ring has
room for every event — a chunk is enqueued to the o2p_midi ring if and
only if its first byte, taken as a whole, lies in `0x08..0x0f` (cable 0,
CIN `0x8..0xF`); every other chunk is dropped. The claim as stated — that
the high nibble of the first byte decides — is false: the code compares
the whole byte, see `C2_counterexample`. -/
theorem C2_midi_filter_amended (status : EngineStatus) (t : ℚ) (buf : List ℕ)
    (space : ℕ) (hrun : EngineStatus.run.toZ ≤ status.toZ)
    (hspace : MIDI_RING_EVENT_SIZE * (midiChunks buf).length ≤ space) :
    cb_xfr_in_midi status true t buf space
      = ((midiChunks buf).filter
          (fun c => decide (0x08 ≤ c.headD 0 ∧ c.headD 0 ≤ 0x0f))).map
          (fun c => OwMidiEvent.mk t c) := by
  have h1 : ¬ (status.toZ < EngineStatus.run.toZ) := not_lt.mpr hrun
  simp only [cb_xfr_in_midi, if_neg h1, if_pos rfl]
  exact processMidiIn_filter t buf space hspace

/-- Witness for C2: the amended filter at a concrete payload of one
note-on event packet. -/
theorem C2_midi_filter_amended_witness :
    (EngineStatus.run.toZ ≤ EngineStatus.run.toZ
      ∧ MIDI_RING_EVENT_SIZE * (midiChunks [0x09, 0x90, 0x40, 0x7f]).length ≤ 512) ∧
    cb_xfr_in_midi .run true 3 [0x09, 0x90, 0x40, 0x7f] 512
      = ((midiChunks [0x09, 0x90, 0x40, 0x7f]).filter
          (fun c => decide (0x08 ≤ c.headD 0 ∧ c.headD 0 ≤ 0x0f))).map
          (fun c => OwMidiEvent.mk 3 c) :=
  ⟨⟨by decide, by decide⟩,
   C2_midi_filter_amended .run 3 [0x09, 0x90, 0x40, 0x7f] 512 (by decide) (by decide)⟩

/-- Counterexample to C2 as stated: the chunk `[0x90, 0x40, 0x7f, 0x00]`
has first-byte high nibble `0x9 ∈ 0x8..0xF`, so the claim says it is
enqueued; the code drops it (`0x90 > 0x0f`). -/
theorem C2_counterexample :
    cb_xfr_in_midi .run true 0 [0x90, 0x40, 0x7f, 0x00] 512 = [] ∧
    8 ≤ 0x90 / 2 ^ 4 ∧ 0x90 / 2 ^ 4 ≤ 15 := by
  decide

/-- C8: every event enqueued to the o2p_midi ring during one midi-in
completion callback carries the single `get_time ()` value sampled at the
start of that callback; in particular the 12-byte buffer
`[0x09, 0x90, 0x40, 0x7f, 0x05, 0, 0, 0, 0x08, 0x80, 0x40, 0x00]`
enqueues exactly two events, both with timestamp `t`. -/
theorem C8_midi_timestamping (status : EngineStatus) (completed : Bool) (t : ℚ)
    (buf : List ℕ) (space : ℕ) :
    (∀ e ∈ cb_xfr_in_midi status completed t buf space, e.time = t) ∧
    cb_xfr_in_midi .run true t
        [0x09, 0x90, 0x40, 0x7f, 0x05, 0x00, 0x00, 0x00, 0x08, 0x80, 0x40, 0x00] 512
      = [⟨t, [0x09, 0x90, 0x40, 0x7f]⟩, ⟨t, [0x08, 0x80, 0x40, 0x00]⟩] := by
  constructor
  · intro e he
    unfold cb_xfr_in_midi at he
    split at he
    · simp at he
    · split at he
      · exact processMidiIn_time t buf space e he
      · simp at he
  · rfl

/-- Witness for C8: the first enqueued event of the concrete payload at
time `5` indeed carries timestamp `5`. -/
theorem C8_midi_timestamping_witness :
    OwMidiEvent.mk 5 [0x09, 0x90, 0x40, 0x7f]
        ∈ cb_xfr_in_midi .run true 5
            [0x09, 0x90, 0x40, 0x7f, 0x05, 0x00, 0x00, 0x00, 0x08, 0x80, 0x40, 0x00]
            512 ∧
    (OwMidiEvent.mk 5 [0x09, 0x90, 0x40, 0x7f]).time = 5 :=
  ⟨by decide,
   (C8_midi_timestamping .run true 5
       [0x09, 0x90, 0x40, 0x7f, 0x05, 0x00, 0x00, 0x00, 0x08, 0x80, 0x40, 0x00]
       512).1
     (OwMidiEvent.mk 5 [0x09, 0x90, 0x40, 0x7f]) (by decide)⟩

/- ## C4: activation validation -/

/-- C4 (amended): the validation prefix of `ow_engine_activate` returns
`OW_OK` if and only if the options bitmask is non-empty and every enabled
option has its required context elements: for the `O2P_AUDIO` direction
the ring reference plus `write_space` and `write`; for the `P2O_AUDIO`
direction the ring reference plus `read_space` and `read`; each enabled
MIDI sub-option `get_time` and its ring; the DLL option `get_time` and a
DLL object. In particular it returns a setup error (never `OW_OK`)
whenever the bitmask is empty or one of these elements is missing. The
claim as stated — all four ring operations required for each enabled
audio direction — is false: each direction checks only its two
operations, see `C4_counterexample`. -/
theorem C4_activate_validation_amended :
    ∀ c : OwContext,
      ow_engine_activate_validate c = OwErr.OW_OK ↔
        (c.options.isEmpty = false
          ∧ (c.options.o2p_audio = true →
              c.write_space = true ∧ c.write = true ∧ c.o2p_audio = true)
          ∧ (c.options.p2o_audio = true →
              c.read_space = true ∧ c.read = true ∧ c.p2o_audio = true)
          ∧ (c.options.o2p_midi = true → c.get_time = true ∧ c.o2p_midi = true)
          ∧ (c.options.p2o_midi = true → c.get_time = true ∧ c.p2o_midi = true)
          ∧ (c.options.dll = true → c.get_time = true ∧ c.dll = true)) := by
  intro c
  constructor
  · intro hOK
    unfold ow_engine_activate_validate at hOK
    have e1 : c.options.isEmpty = false := by
      cases h : c.options.isEmpty
      · rfl
      · rw [if_pos h] at hOK
        exact absurd hOK (by decide)
    rw [if_neg (by simp [e1])] at hOK
    have e2 : (c.options.o2p_audio && !c.write_space) = false := by
      cases h : c.options.o2p_audio && !c.write_space
      · rfl
      · rw [if_pos h] at hOK
        exact absurd hOK (by decide)
    rw [if_neg (by simp [e2])] at hOK
    have e3 : (c.options.o2p_audio && !c.write) = false := by
      cases h : c.options.o2p_audio && !c.write
      · rfl
      · rw [if_pos h] at hOK
        exact absurd hOK (by decide)
    rw [if_neg (by simp [e3])] at hOK
    have e4 : (c.options.o2p_audio && !c.o2p_audio) = false := by
      cases h : c.options.o2p_audio && !c.o2p_audio
      · rfl
      · rw [if_pos h] at hOK
        exact absurd hOK (by decide)
    rw [if_neg (by simp [e4])] at hOK
    have e5 : (c.options.p2o_audio && !c.read_space) = false := by
      cases h : c.options.p2o_audio && !c.read_space
      · rfl
      · rw [if_pos h] at hOK
        exact absurd hOK (by decide)
    rw [if_neg (by simp [e5])] at hOK
    have e6 : (c.options.p2o_audio && !c.read) = false := by
      cases h : c.options.p2o_audio && !c.read
      · rfl
      · rw [if_pos h] at hOK
        exact absurd hOK (by decide)
    rw [if_neg (by simp [e6])] at hOK
    have e7 : (c.options.p2o_audio && !c.p2o_audio) = false := by
      cases h : c.options.p2o_audio && !c.p2o_audio
      · rfl
      · rw [if_pos h] at hOK
        exact absurd hOK (by decide)
    rw [if_neg (by simp [e7])] at hOK
    have e8 : (c.options.o2p_midi && !c.get_time) = false := by
      cases h : c.options.o2p_midi && !c.get_time
      · rfl
      · rw [if_pos h] at hOK
        exact absurd hOK (by decide)
    rw [if_neg (by simp [e8])] at hOK
    have e9 : (c.options.o2p_midi && !c.o2p_midi) = false := by
      cases h : c.options.o2p_midi && !c.o2p_midi
      · rfl
      · rw [if_pos h] at hOK
        exact absurd hOK (by decide)
    rw [if_neg (by simp [e9])] at hOK
    have e10 : (c.options.p2o_midi && !c.get_time) = false := by
      cases h : c.options.p2o_midi && !c.get_time
      · rfl
      · rw [if_pos h] at hOK
        exact absurd hOK (by decide)
    rw [if_neg (by simp [e10])] at hOK
    have e11 : (c.options.p2o_midi && !c.p2o_midi) = false := by
      cases h : c.options.p2o_midi && !c.p2o_midi
      · rfl
      · rw [if_pos h] at hOK
        exact absurd hOK (by decide)
    rw [if_neg (by simp [e11])] at hOK
    have e12 : (c.options.dll && !c.get_time) = false := by
      cases h : c.options.dll && !c.get_time
      · rfl
      · rw [if_pos h] at hOK
        exact absurd hOK (by decide)
    rw [if_neg (by simp [e12])] at hOK
    have e13 : (c.options.dll && !c.dll) = false := by
      cases h : c.options.dll && !c.dll
      · rfl
      · rw [if_pos h] at hOK
        exact absurd hOK (by decide)
    have g : ∀ a b : Bool, (a && !b) = false → a = true → b = true := by decide
    exact ⟨e1,
      fun ho => ⟨g _ _ e2 ho, g _ _ e3 ho, g _ _ e4 ho⟩,
      fun ho => ⟨g _ _ e5 ho, g _ _ e6 ho, g _ _ e7 ho⟩,
      fun ho => ⟨g _ _ e8 ho, g _ _ e9 ho⟩,
      fun ho => ⟨g _ _ e10 ho, g _ _ e11 ho⟩,
      fun ho => ⟨g _ _ e12 ho, g _ _ e13 ho⟩⟩
  · rintro ⟨h1, h2, h3, h4, h5, h6⟩
    have f : ∀ a b : Bool, (a = true → b = true) → (a && !b) = false := by decide
    unfold ow_engine_activate_validate
    rw [if_neg (by simp [h1]),
      if_neg (by simp [f _ _ (fun ho => (h2 ho).1)]),
      if_neg (by simp [f _ _ (fun ho => (h2 ho).2.1)]),
      if_neg (by simp [f _ _ (fun ho => (h2 ho).2.2)]),
      if_neg (by simp [f _ _ (fun ho => (h3 ho).1)]),
      if_neg (by simp [f _ _ (fun ho => (h3 ho).2.1)]),
      if_neg (by simp [f _ _ (fun ho => (h3 ho).2.2)]),
      if_neg (by simp [f _ _ (fun ho => (h4 ho).1)]),
      if_neg (by simp [f _ _ (fun ho => (h4 ho).2)]),
      if_neg (by simp [f _ _ (fun ho => (h5 ho).1)]),
      if_neg (by simp [f _ _ (fun ho => (h5 ho).2)]),
      if_neg (by simp [f _ _ (fun ho => (h6 ho).1)]),
      if_neg (by simp [f _ _ (fun ho => (h6 ho).2)])]

/-- Counterexample to C4 as stated: with only `O2P_AUDIO` enabled and
`read`/`read_space` absent (but `write_space`, `write` and the o2p ring
present), activation validation succeeds, although the claim demands a
setup error for the missing `read` and `read_space`. -/
theorem C4_counterexample :
    ow_engine_activate_validate
        ⟨⟨true, false, false, false, false⟩,
          false, true, false, true, false, true, false, false, false, false⟩
      = OwErr.OW_OK ∧
    (⟨⟨true, false, false, false, false⟩,
        false, true, false, true, false, true, false, false, false, false⟩
      : OwContext).options.o2p_audio = true ∧
    (⟨⟨true, false, false, false, false⟩,
        false, true, false, true, false, true, false, false, false, false⟩
      : OwContext).read = false ∧
    (⟨⟨true, false, false, false, false⟩,
        false, true, false, true, false, true, false, false, false, false⟩
      : OwContext).read_space = false := by
  decide

/- ## C7: outgoing block counter -/

theorem htobe16_congr (x y : ℕ) (h : x % 2 ^ 16 = y % 2 ^ 16) :
    htobe16 x = htobe16 y := by
  simp only [htobe16, List.cons.injEq, and_true]
  omega

theorem write_blocks_length (ch : ℕ) :
    ∀ (blks : List UsbBlk) (frames : ℕ) (fs : List ℚ),
      (ow_engine_write_usb_output_blocks ch blks frames fs).1.length = blks.length
  | [], _, _ => rfl
  | b :: bs, frames, fs => by
      simp only [ow_engine_write_usb_output_blocks, List.length_cons]
      rw [write_blocks_length ch bs _ _]

theorem write_blocks_counter (ch : ℕ) :
    ∀ (blks : List UsbBlk) (frames : ℕ) (fs : List ℚ), frames < 2 ^ 16 →
      (ow_engine_write_usb_output_blocks ch blks frames fs).2
        = (frames + FRAMES_PER_BLOCK * blks.length) % 2 ^ 16
  | [], frames, fs, h => by
      simp only [ow_engine_write_usb_output_blocks, List.length_nil, Nat.mul_zero,
        Nat.add_zero]
      omega
  | b :: bs, frames, fs, h => by
      simp only [ow_engine_write_usb_output_blocks, List.length_cons]
      rw [write_blocks_counter ch bs _ _ (Nat.mod_lt _ (by norm_num))]
      simp only [FRAMES_PER_BLOCK]
      generalize bs.length = n
      omega

theorem write_blocks_frames_get (ch : ℕ) :
    ∀ (blks : List UsbBlk) (frames : ℕ) (fs : List ℚ) (n : ℕ), n < blks.length →
      ((ow_engine_write_usb_output_blocks ch blks frames fs).1[n]?).map UsbBlk.frames
        = some (htobe16 (frames + n * FRAMES_PER_BLOCK))
  | b :: bs, frames, fs, 0, h => by
      simp [ow_engine_write_usb_output_blocks]
  | b :: bs, frames, fs, n + 1, h => by
      simp only [ow_engine_write_usb_output_blocks, List.getElem?_cons_succ]
      rw [write_blocks_frames_get ch bs _ _ n (by simpa using h)]
      congr 1
      apply htobe16_congr
      simp only [FRAMES_PER_BLOCK]
      omega
  | [], _, _, n, h => by simp at h

theorem write_blocks_headers (ch : ℕ) :
    ∀ (blks : List UsbBlk) (frames : ℕ) (fs : List ℚ),
      (ow_engine_write_usb_output_blocks ch blks frames fs).1.map UsbBlk.header
        = blks.map UsbBlk.header
  | [], _, _ => rfl
  | b :: bs, frames, fs => by
      simp only [ow_engine_write_usb_output_blocks, List.map_cons]
      rw [write_blocks_headers ch bs _ _]

theorem counter_iterate (m f0 : ℕ) (h : f0 < 2 ^ 16) :
    ∀ k : ℕ, (fun c => (c + m) % 2 ^ 16)^[k] f0 = (f0 + k * m) % 2 ^ 16
  | 0 => by
      simp only [Function.iterate_zero, id_eq, Nat.zero_mul, Nat.add_zero]
      omega
  | k + 1 => by
      rw [Function.iterate_succ_apply', counter_iterate m f0 h k]
      simp only [Nat.succ_mul]
      generalize k * m = a
      omega

/-- C7: each call to `ow_engine_write_usb_output_blocks` writes exactly
`blocks_per_transfer` blocks whose `frames` fields are
`htobe16 (base + n * FRAMES_PER_BLOCK)` for contiguous `n`, starting from
the 16-bit running counter at entry; headers stay `htobe16 (0x07ff)` as
stamped by `ow_engine_init_mem`; the counter advances by exactly
`FRAMES_PER_BLOCK * blocks_per_transfer` per call (in 16-bit arithmetic),
and the unwrapped counter — whose 16-bit reduction is reached by
iterating the per-call advance — is strictly monotone over successive
transfers. -/
theorem C7_block_counter (ch bpt : ℕ) (hbpt : 0 < bpt) (blks : List UsbBlk)
    (hblen : blks.length = bpt)
    (hhdr : ∀ b ∈ blks, b.header = htobe16 0x7ff)
    (frames0 : ℕ) (hf : frames0 < 2 ^ 16) (fs : List ℚ) :
    (ow_engine_write_usb_output_blocks ch blks frames0 fs).1.length = bpt ∧
    (∀ n, n < bpt →
      ((ow_engine_write_usb_output_blocks ch blks frames0 fs).1[n]?).map UsbBlk.frames
        = some (htobe16 (frames0 + n * FRAMES_PER_BLOCK))) ∧
    (∀ b ∈ (ow_engine_write_usb_output_blocks ch blks frames0 fs).1,
      b.header = htobe16 0x7ff) ∧
    (ow_engine_write_usb_output_blocks ch blks frames0 fs).2
      = (frames0 + FRAMES_PER_BLOCK * bpt) % 2 ^ 16 ∧
    (∀ k : ℕ, (fun c => (c + FRAMES_PER_BLOCK * bpt) % 2 ^ 16)^[k] frames0
      = (frames0 + k * (FRAMES_PER_BLOCK * bpt)) % 2 ^ 16) ∧
    StrictMono (fun k : ℕ => frames0 + k * (FRAMES_PER_BLOCK * bpt)) := by
  refine ⟨?_, ?_, ?_, ?_, ?_, ?_⟩
  · rw [write_blocks_length ch blks frames0 fs, hblen]
  · intro n hn
    exact write_blocks_frames_get ch blks frames0 fs n (by omega)
  · intro b hb
    have h := write_blocks_headers ch blks frames0 fs
    have hmem : b.header ∈ blks.map UsbBlk.header := by
      rw [← h]
      exact List.mem_map_of_mem _ hb
    obtain ⟨b2, hb2, he⟩ := List.mem_map.mp hmem
    rw [← he]
    exact hhdr b2 hb2
  · rw [write_blocks_counter ch blks frames0 fs hf, hblen]
  · exact counter_iterate _ frames0 hf
  · have hm : 0 < FRAMES_PER_BLOCK * bpt := by
      simp only [FRAMES_PER_BLOCK]
      omega
    intro a b hab
    simpa using Nat.add_lt_add_left (Nat.mul_lt_mul_of_pos_right hab hm) frames0

/-- Witness for C7: the concrete configuration of one block, one channel,
counter starting at zero. -/
theorem C7_block_counter_witness :
    (0 < 1
      ∧ (initOutputBlks 1 1).length = 1
      ∧ (∀ b ∈ initOutputBlks 1 1, b.header = htobe16 0x7ff)
      ∧ (0 : ℕ) < 2 ^ 16) ∧
    ((ow_engine_write_usb_output_blocks 1 (initOutputBlks 1 1) 0 []).1.length = 1 ∧
    (∀ n, n < 1 →
      ((ow_engine_write_usb_output_blocks 1 (initOutputBlks 1 1) 0 []).1[n]?).map
          UsbBlk.frames
        = some (htobe16 (0 + n * FRAMES_PER_BLOCK))) ∧
    (∀ b ∈ (ow_engine_write_usb_output_blocks 1 (initOutputBlks 1 1) 0 []).1,
      b.header = htobe16 0x7ff) ∧
    (ow_engine_write_usb_output_blocks 1 (initOutputBlks 1 1) 0 []).2
      = (0 + FRAMES_PER_BLOCK * 1) % 2 ^ 16 ∧
    (∀ k : ℕ, (fun c => (c + FRAMES_PER_BLOCK * 1) % 2 ^ 16)^[k] 0
      = (0 + k * (FRAMES_PER_BLOCK * 1)) % 2 ^ 16) ∧
    StrictMono (fun k : ℕ => 0 + k * (FRAMES_PER_BLOCK * 1))) :=
  ⟨⟨Nat.one_pos, by decide, by decide, by norm_num⟩,
   C7_block_counter 1 1 Nat.one_pos (initOutputBlks 1 1) (by decide) (by decide)
     0 (by norm_num) []⟩

/- ## C9: status monotonicity toward STOP -/

theorem midiRank_step {s s2 : SysState} {l : StepLabel}
    (hstep : Step s l s2) (hstop : s.status.toZ ≤ EngineStatus.stop.toZ) :
    midiRank s.midiPC ≤ midiRank s2.midiPC := by
  cases hstep with
  | midi_body hpc =>
      rw [hpc]
      exact (by decide : midiRank MidiPC.body ≤ midiRank MidiPC.check)
  | midi_exit hpc hle =>
      rw [hpc]
      exact (by decide : midiRank MidiPC.check ≤ midiRank MidiPC.exited)
  | midi_cont hpc hgt =>
      have h1 : s.status.toZ ≤ (0 : ℤ) := hstop
      have h2 : (0 : ℤ) < s.status.toZ := hgt
      omega
  | spin_stay hpc hst => exact le_refl _
  | spin_exit hpc hst => exact le_refl _
  | submit_ok hpc => exact le_refl _
  | submit_err hpc => exact le_refl _
  | loop_top hpc => exact le_refl _
  | set_status_top hpc => exact le_refl _
  | event_stay hpc hge => exact le_refl _
  | event_err hpc hge => exact le_refl _
  | event_exit hpc hlt => exact le_refl _
  | check_stop hpc hle => exact le_refl _
  | check_cont hpc hgt => exact le_refl _
  | drain_step hpc => exact le_refl _
  | env_stop => exact le_refl _
  | env_boot => exact le_refl _

theorem stopSafe_step {s s2 : SysState} {l : StepLabel}
    (hs : StopSafe s) (hstep : Step s l s2) (hl : l ≠ StepLabel.envBoot) :
    StopSafe s2 := by
  obtain ⟨h1, h2⟩ := hs
  cases hstep with
  | spin_stay hpc hst =>
      rw [hpc] at h2
      simp at h2
  | spin_exit hpc hst =>
      rw [hpc] at h2
      simp at h2
  | submit_ok hpc =>
      rw [hpc] at h2
      simp at h2
  | submit_err hpc =>
      rw [hpc] at h2
      simp at h2
  | loop_top hpc =>
      rw [hpc] at h2
      simp at h2
  | set_status_top hpc =>
      rw [hpc] at h2
      simp at h2
  | drain_step hpc =>
      rw [hpc] at h2
      simp at h2
  | event_stay hpc hge => exact ⟨h1, h2⟩
  | event_err hpc hge =>
      exact ⟨(by decide : EngineStatus.error.toZ ≤ EngineStatus.stop.toZ), Or.inl hpc⟩
  | event_exit hpc hlt => exact ⟨h1, Or.inr (Or.inl rfl)⟩
  | check_stop hpc hle => exact ⟨h1, Or.inr (Or.inr rfl)⟩
  | check_cont hpc hgt =>
      exact absurd hgt (not_lt.mpr h1)
  | midi_body hpc => exact ⟨h1, h2⟩
  | midi_exit hpc hle => exact ⟨h1, h2⟩
  | midi_cont hpc hgt => exact ⟨h1, h2⟩
  | env_stop =>
      exact ⟨(by decide : EngineStatus.stop.toZ ≤ EngineStatus.stop.toZ), h2⟩
  | env_boot => exact absurd rfl hl

/-- C9 (amended): if the status is at most `STOP` while the audio worker
is inside its inner event loop, at its termination check, or exited (in
particular right after `ow_engine_stop` lands while the worker is
handling events), and no external `BOOT` resync write follows, then no
later step of either worker or of `ow_engine_stop` ever raises the
status: `ow_engine_get_status` stays at most `STOP`, the audio worker
never returns to its loop body, and the p2o-MIDI worker only advances
toward exit. The claim as stated — the property for arbitrary stop
instants — is false by the check-then-store race of
`run_audio_o2p_midi`, see `C9_counterexample`. -/
theorem C9_stop_monotone_amended (s s2 : SysState) (hs : StopSafe s)
    (h : Relation.ReflTransGen SysStepNoBoot s s2) :
    (ow_engine_get_status s2).toZ ≤ EngineStatus.stop.toZ ∧
    (s2.audioPC = .eventLoop ∨ s2.audioPC = .checkExit ∨ s2.audioPC = .exited) ∧
    midiRank s.midiPC ≤ midiRank s2.midiPC := by
  have key : StopSafe s2 ∧ midiRank s.midiPC ≤ midiRank s2.midiPC := by
    induction h with
    | refl => exact ⟨hs, le_refl _⟩
    | tail hab hbc ih =>
        obtain ⟨l, hl, hstep⟩ := hbc
        obtain ⟨ihs, ihr⟩ := ih
        exact ⟨stopSafe_step ihs hstep hl, le_trans ihr (midiRank_step hstep ihs.1)⟩
  exact ⟨key.1.1, key.1.2, key.2⟩

/-- Witness for C9: a stopped-and-exited state is stop-safe and stays
below `STOP` along the empty execution. -/
theorem C9_stop_monotone_amended_witness :
    StopSafe ⟨.stop, .exited, .exited, false⟩ ∧
    ((ow_engine_get_status ⟨.stop, .exited, .exited, false⟩).toZ
        ≤ EngineStatus.stop.toZ ∧
      ((⟨.stop, .exited, .exited, false⟩ : SysState).audioPC = .eventLoop
        ∨ (⟨.stop, .exited, .exited, false⟩ : SysState).audioPC = .checkExit
        ∨ (⟨.stop, .exited, .exited, false⟩ : SysState).audioPC = .exited) ∧
      midiRank MidiPC.exited ≤ midiRank MidiPC.exited) :=
  ⟨⟨by decide, Or.inr (Or.inr rfl)⟩,
   C9_stop_monotone_amended ⟨.stop, .exited, .exited, false⟩
     ⟨.stop, .exited, .exited, false⟩ ⟨by decide, Or.inr (Or.inr rfl)⟩
     Relation.ReflTransGen.refl⟩

/-- Counterexample to C9 as stated: from the initial state, the audio
worker boots (writing `RUN`), an external resync sets `BOOT`, the worker
leaves its event loop and passes its termination check (status `BOOT` is
above `STOP`); then `ow_engine_stop` sets `STOP` — yet the worker's next
steps drain, reach the loop top and overwrite the status with `RUN`
(a value above `STOP`), resuming the loop: a worker step after the stop
writes a status greater than `STOP`. -/
theorem C9_counterexample :
    Relation.ReflTransGen SysStepAny
        ⟨.stop, .spinReady, .body, false⟩ ⟨.boot, .drainResync, .body, false⟩ ∧
    Step ⟨.boot, .drainResync, .body, false⟩ .envStop
      (ow_engine_stop ⟨.boot, .drainResync, .body, false⟩) ∧
    ow_engine_stop ⟨.boot, .drainResync, .body, false⟩
      = ⟨.stop, .drainResync, .body, false⟩ ∧
    Step ⟨.stop, .drainResync, .body, false⟩ .audio ⟨.stop, .loopTop, .body, false⟩ ∧
    Step ⟨.stop, .loopTop, .body, false⟩ .audio ⟨.stop, .setStatusTop, .body, false⟩ ∧
    Step ⟨.stop, .setStatusTop, .body, false⟩ .audio ⟨.run, .eventLoop, .body, false⟩ ∧
    EngineStatus.stop.toZ
      < (⟨.run, .eventLoop, .body, false⟩ : SysState).status.toZ := by
  refine ⟨?_, Step.env_stop _, rfl, Step.drain_step _ rfl, Step.loop_top _ rfl,
    Step.set_status_top _ rfl, by decide⟩
  have s1 : SysStepAny ⟨.stop, .spinReady, .body, false⟩
      ⟨.stop, .submitInit, .body, false⟩ :=
    ⟨.audio, Step.spin_exit _ rfl (by decide)⟩
  have s2 : SysStepAny ⟨.stop, .submitInit, .body, false⟩
      ⟨.stop, .loopTop, .body, false⟩ :=
    ⟨.audio, Step.submit_ok _ rfl⟩
  have s3 : SysStepAny ⟨.stop, .loopTop, .body, false⟩
      ⟨.stop, .setStatusTop, .body, false⟩ :=
    ⟨.audio, Step.loop_top _ rfl⟩
  have s4 : SysStepAny ⟨.stop, .setStatusTop, .body, false⟩
      ⟨.run, .eventLoop, .body, false⟩ :=
    ⟨.audio, Step.set_status_top _ rfl⟩
  have s5 : SysStepAny ⟨.run, .eventLoop, .body, false⟩
      ⟨.boot, .eventLoop, .body, false⟩ :=
    ⟨.envBoot, Step.env_boot _⟩
  have s6 : SysStepAny ⟨.boot, .eventLoop, .body, false⟩
      ⟨.boot, .checkExit, .body, false⟩ :=
    ⟨.audio, Step.event_exit _ rfl (by decide)⟩
  have s7 : SysStepAny ⟨.boot, .checkExit, .body, false⟩
      ⟨.boot, .drainResync, .body, false⟩ :=
    ⟨.audio, Step.check_cont _ rfl (by decide)⟩
  exact .head s1 (.head s2 (.head s3 (.head s4 (.head s5 (.head s6 (.head s7 .refl))))))

end Overwitch
